import Mathlib

/-!
Verification of the weekly OE report pipeline.

The development shallowly embeds the core logic of the pipeline: date-window
filtering, population-type normalization, client deduplication by
population priority, lives metrics, and the next-week projection.
Rows are records over exact rationals and calendar dates; frames are
lists of rows; the stable multi-column sort of pandas is modelled with
`List.mergeSort` (stable), and `drop_duplicates(keep=first)` with a
first-occurrence scan.
-/

namespace WeeklyReports

/-- A calendar date as stored on a normalized row (year, month, day). -/
structure Date where
  year : Int
  month : Int
  day : Int
deriving DecidableEq, Repr

/-- Lexicographic `≤` on dates, matching Python `date` comparison. -/
def Date.ble (a b : Date) : Bool :=
  if a.year ≠ b.year then a.year < b.year
  else if a.month ≠ b.month then a.month < b.month
  else a.day ≤ b.day

/-- Strict `<` on dates. -/
def Date.blt (a b : Date) : Bool := !(Date.ble b a)

instance : LE Date := ⟨fun a b => Date.ble a b = true⟩

instance : LT Date := ⟨fun a b => Date.blt a b = true⟩

instance (a b : Date) : Decidable (a ≤ b) :=
  inferInstanceAs (Decidable (_ = true))

instance (a b : Date) : Decidable (a < b) :=
  inferInstanceAs (Decidable (_ = true))

/-- One normalized enrollment row (after `load_and_clean_excel`). -/
structure Row where
  client_id : String
  population_type : String
  population_size : ℚ
  total_oe_count : ℚ
  confirmed_oe_count : ℚ
  start_date : Date
  end_date : Date
deriving DecidableEq, Repr

/-! ### String helpers modelling Python `str` methods -/

/-- Model of Python `str.strip` based on `Char.isWhitespace`. -/
def pyStrip (s : String) : String :=
  ⟨((s.data.dropWhile Char.isWhitespace).reverse.dropWhile Char.isWhitespace).reverse⟩

/-- Model of Python `str.lower` (ASCII). -/
def pyLower (s : String) : String :=
  ⟨s.data.map Char.toLower⟩

/-- True when the first argument appears at the head of the second. -/
def leadsWith : List Char → List Char → Bool
  | [], _ => true
  | _ :: _, [] => false
  | p :: ps, c :: cs => p == c && leadsWith ps cs

/-- True when the first argument occurs contiguously inside the second. -/
def hasSub (pat : List Char) : List Char → Bool
  | [] => pat.isEmpty
  | c :: cs => leadsWith pat (c :: cs) || hasSub pat cs

/-- Model of the Python `pat in s` substring test. -/
def strContains (s pat : String) : Bool := hasSub pat.data s.data

/-- Helper for `pyTitle`: the Boolean tracks whether the previous
character was alphabetic (cased). -/
def pyTitleAux : Bool → List Char → List Char
  | _, [] => []
  | prevCased, c :: cs =>
    if c.isAlpha then
      (if prevCased then c.toLower else c.toUpper) :: pyTitleAux true cs
    else
      c :: pyTitleAux false cs

/-- Model of Python `str.title` (ASCII): each run of letters starts
uppercase, the rest lowercased. -/
def pyTitle (s : String) : String := ⟨pyTitleAux false s.data⟩

/-- Source function `normalize_pop_type`: non-strings map to `"Unknown"`;
otherwise strip/lowercase, test `"active" in v or v == "act"`, then
`"cobra" in v or v == "cob"`, then `"ret" in v`; fall through to
`val.strip().title()`. -/
def normalize_pop_type (val : Option String) : String :=
  match val with
  | none => "Unknown"
  | some s =>
    let v := pyLower (pyStrip s)
    if strContains v "active" || v == "act" then "Active"
    else if strContains v "cobra" || v == "cob" then "COBRA"
    else if strContains v "ret" then "Retiree"
    else pyTitle (pyStrip s)

/-! ### Window filters -/

/-- Filter `rows_going_live`: `start_d <= __Start_d <= end_d`. -/
def rows_going_live (df : List Row) (start_d end_d : Date) : List Row :=
  df.filter (fun r => Date.ble start_d r.start_date && Date.ble r.start_date end_d)

/-- Filter `rows_active`: overlap test `__Start_d <= end_d AND __End_d >= start_d`. -/
def rows_active (df : List Row) (start_d end_d : Date) : List Row :=
  df.filter (fun r => Date.ble r.start_date end_d && Date.ble start_d r.end_date)

/-- Filter `rows_completed`: `__End_d < week_start_d`. -/
def rows_completed (df : List Row) (week_start_d : Date) : List Row :=
  df.filter (fun r => Date.blt r.end_date week_start_d)

/-! ### Client deduplication -/

/-- Priority rank from `POP_PRIORITY = [Active, COBRA, Retiree]`;
unlisted types get rank `3` (`order.get(p, len(order))`). -/
def popRank (r : Row) : ℕ :=
  if r.population_type = "Active" then 0
  else if r.population_type = "COBRA" then 1
  else if r.population_type = "Retiree" then 2
  else 3

/-- The sort key of `sort_values([CONTROL_ID_COL, "__pop_order"])`:
lexicographic on (client_id, popRank). -/
def rowKeyLe (a b : Row) : Bool :=
  decide (a.client_id < b.client_id ∨
    (a.client_id = b.client_id ∧ popRank a ≤ popRank b))

/-- Model of `drop_duplicates(subset=[CONTROL_ID_COL], keep="first")`: scan keeping
the first row per client id. -/
def keepFirstAux (seen : List String) : List Row → List Row
  | [] => []
  | r :: rs =>
    if r.client_id ∈ seen then keepFirstAux seen rs
    else r :: keepFirstAux (r.client_id :: seen) rs

/-- Source function `dedupe_clients_for_count`: stable sort by (client_id, priority rank),
then keep the first row per client id. The pandas multi-column
`sort_values` is a stable lexsort, modelled by `List.mergeSort`. -/
def dedupe_clients_for_count (df : List Row) : List Row :=
  keepFirstAux [] (df.mergeSort rowKeyLe)

/-- Source function `count_unique_clients`: 0 for an empty frame, else `nunique` of the
deduplicated client ids. -/
def count_unique_clients (df : List Row) : ℕ :=
  if df = [] then 0
  else (((dedupe_clients_for_count df).map Row.client_id).dedup).length

/-! ### Lives metrics -/

/-- Python `int(...)`: truncation toward zero on an exact rational. -/
def intTrunc (q : ℚ) : ℤ :=
  if 0 ≤ q then ⌊q⌋ else ⌈q⌉

/-- Python `round(...)`: round half to even. -/
def pyRound (q : ℚ) : ℤ :=
  if q - (⌊q⌋ : ℚ) < 1/2 then ⌊q⌋
  else if 1/2 < q - (⌊q⌋ : ℚ) then ⌊q⌋ + 1
  else if ⌊q⌋ % 2 = 0 then ⌊q⌋ else ⌊q⌋ + 1

/-- Source function `calc_lives_active`: per-row `where(oe > 0, oe - conf, pop)`, clamped
at 0, summed, and truncated to int. -/
def calc_lives_active (df : List Row) : ℤ :=
  if df = [] then 0
  else intTrunc ((df.map (fun r =>
    max (if 0 < r.total_oe_count then r.total_oe_count - r.confirmed_oe_count
         else r.population_size) 0)).sum)

/-- Source function `calc_lives_confirmed_for_active`: sum `Confirmed OE Events` over rows
with `date(year(week_end), 9, 8) <= __Start_d <= week_end`. -/
def calc_lives_confirmed_for_active (df : List Row) (week_end : Date) : ℤ :=
  if df = [] then 0
  else intTrunc (((df.filter (fun r =>
    Date.ble ⟨week_end.year, 9, 8⟩ r.start_date && Date.ble r.start_date week_end)).map
      Row.confirmed_oe_count).sum)

/-! ### Next-week projection -/

/-- Source function `continuing_next_week`: rows active in the next window whose start
is strictly before the start of the next window. -/
def continuing_next_week (df : List Row) (next_start_d next_end_d : Date) : List Row :=
  (rows_active df next_start_d next_end_d).filter
    (fun r => Date.blt r.start_date next_start_d)

/-- Source function `new_go_lives_next_week`: rows going live within the next window. -/
def new_go_lives_next_week (df : List Row) (next_start_d next_end_d : Date) : List Row :=
  rows_going_live df next_start_d next_end_d

/-- The per-row population estimate `__pop_est`:
`where(pop_size > 0, pop_size, total_oe)`. -/
def pop_est (r : Row) : ℚ :=
  if 0 < r.population_size then r.population_size else r.total_oe_count

/-- Bucket sum `by_type.get(t, 0)`: sum of `__pop_est` over the rows of a client
group whose population type is `t`. -/
def client_bucket (g : List Row) (t : String) : ℚ :=
  ((g.filter (fun r => r.population_type == t)).map pop_est).sum

/-- Bucket sum `others`: sum of `__pop_est` over types outside
`{Active, Retiree, COBRA}`. -/
def client_others (g : List Row) : ℚ :=
  ((g.filter (fun r =>
    !(r.population_type == "Active") && !(r.population_type == "Retiree") &&
    !(r.population_type == "COBRA"))).map pop_est).sum

/-- Projected contribution of one client group: clamp Retiree to Active
when `Active > 0` and `Retiree > Active`, then
`int(round(active + retiree + cobra + others))`. -/
def client_contribution (g : List Row) : ℤ :=
  let active := client_bucket g "Active"
  let retiree0 := client_bucket g "Retiree"
  let cobra := client_bucket g "COBRA"
  let others := client_others g
  let retiree := if 0 < active ∧ active < retiree0 then active else retiree0
  pyRound (active + retiree + cobra + others)

/-- Source function `sum_new_client_popsize_with_guard`: group by client id and
accumulate the guarded, rounded contribution of each group. -/
def sum_new_client_popsize_with_guard (new_rows : List Row) : ℤ :=
  if new_rows = [] then 0
  else ((new_rows.map Row.client_id).dedup).foldl (fun total cid =>
    total + client_contribution (new_rows.filter (fun r => r.client_id == cid))) 0

/-- The value written over the lives-active metric of the Next Week row. -/
def projected_next_week (df : List Row) (next_start_d next_end_d : Date) : ℤ :=
  calc_lives_active (continuing_next_week df next_start_d next_end_d) +
    sum_new_client_popsize_with_guard (new_go_lives_next_week df next_start_d next_end_d)

/-! ### Summary builder -/

/-- One row of the final three-week summary table. -/
structure SummaryRow where
  week : String
  clients_going_live : ℕ
  clients_active : ℕ
  clients_completed : ℕ
  lives_active : ℤ
  lives_confirmed : ℤ
deriving DecidableEq, Repr

/-- Zero-padded two-digit field of `strftime("%m/%d")`. -/
def pad2 (n : Int) : String :=
  if n < 10 then "0" ++ toString n else toString n

/-- The `MM/DD - MM/DD` week label. -/
def week_label (start_d end_d : Date) : String :=
  pad2 start_d.month ++ "/" ++ pad2 start_d.day ++ " - " ++
    pad2 end_d.month ++ "/" ++ pad2 end_d.day

/-- The naive per-window summary row computed inside the `build_summary`
loop, before any projection overwrite. -/
def summary_row (df : List Row) (w : Date × Date) : SummaryRow :=
  { week := week_label w.1 w.2
    clients_going_live := count_unique_clients (rows_going_live df w.1 w.2)
    clients_active := count_unique_clients (rows_active df w.1 w.2)
    clients_completed := count_unique_clients (rows_completed df w.1)
    lives_active := calc_lives_active (rows_active df w.1 w.2)
    lives_confirmed :=
      calc_lives_confirmed_for_active (rows_active df w.1 w.2) w.2 }

/-- Source function `build_summary`: naive rows for Last/This/Next week in order, then
`rows[2]["Lives Active (Not Confirmed)"] = projected`. -/
def build_summary (df : List Row) (lastW thisW nextW : Date × Date) :
    List SummaryRow :=
  let rows := [lastW, thisW, nextW].map (summary_row df)
  let projected := projected_next_week df nextW.1 nextW.2
  List.modify (fun r => { r with lives_active := projected }) 2 rows

/-! ### Schema normalizer -/

/-- One raw spreadsheet row before cleaning.  `start_cands`/`end_cands`
hold the parse results of the present candidate date columns, in the
fallback priority order (`none` = blank, sentinel, or unparseable).
Numeric and population-type fields are `none` when missing/unparseable. -/
structure RawRow where
  client_id : String
  population_type : Option String
  population_size : Option ℚ
  total_oe_count : Option ℚ
  confirmed_oe_count : Option ℚ
  start_cands : List (Option Date)
  end_cands : List (Option Date)
deriving DecidableEq, Repr

/-- Source function `coalesce_dates`: first parseable date across the candidate columns
in priority order (`bfill(axis=1).iloc[:, 0]`). -/
def coalesce_dates (cands : List (Option Date)) : Option Date :=
  cands.findSome? id

/-- The per-row core of `load_and_clean_excel`: mirror a missing bound
from the other, then keep the row only when `__End >= __Start` (pandas
comparisons with a missing date are false, so a row with no resolved
date at all is dropped by the same mask). -/
def clean_row (r : RawRow) : Option Row :=
  let s1 := (coalesce_dates r.start_cands).orElse fun _ => coalesce_dates r.end_cands
  let e1 := (coalesce_dates r.end_cands).orElse fun _ => s1
  match s1, e1 with
  | some s, some e =>
    if Date.ble s e then
      some { client_id := pyStrip r.client_id
             population_type := normalize_pop_type r.population_type
             population_size := r.population_size.getD 0
             total_oe_count := r.total_oe_count.getD 0
             confirmed_oe_count := r.confirmed_oe_count.getD 0
             start_date := s
             end_date := e }
    else none
  | _, _ => none

/-- Source function `load_and_clean_excel` restricted to its row-level semantics:
normalize each raw row, dropping invalid ones. -/
def load_and_clean_excel (rows : List RawRow) : List Row :=
  rows.filterMap clean_row

/-! ### Spec-side definitions (worded from the specification, for
refinement comparisons against the source-derived functions above) -/

/-- Spec wording of the per-row lives-active contribution:
`total_oe_count - confirmed_oe_count` when `total_oe_count > 0`, else
`population_size`, clamped at 0. -/
def spec_row_lives (r : Row) : ℚ :=
  max (if 0 < r.total_oe_count then r.total_oe_count - r.confirmed_oe_count
       else r.population_size) 0

/-- Spec wording of population-type normalization: missing → Unknown;
case/whitespace-insensitively, a value containing "active" or equal to
"act" → Active; containing "cobra" or equal to "cob" → COBRA; containing
"ret" → Retiree; anything else trimmed and title-cased. -/
def spec_normalize_pop_type (val : Option String) : String :=
  match val with
  | none => "Unknown"
  | some s =>
    let v := pyLower (pyStrip s)
    if strContains v "active" || v == "act" then "Active"
    else if strContains v "cobra" || v == "cob" then "COBRA"
    else if strContains v "ret" then "Retiree"
    else pyTitle (pyStrip s)

/-- Spec predicate for the going-live filter: `start_date ∈ [s, e]`. -/
def spec_going_live (s e : Date) (r : Row) : Prop :=
  s ≤ r.start_date ∧ r.start_date ≤ e

/-- Spec predicate for the active filter:
`start_date <= e AND end_date >= s`. -/
def spec_active (s e : Date) (r : Row) : Prop :=
  r.start_date ≤ e ∧ s ≤ r.end_date

/-- Spec predicate for the completed filter: `end_date < s`. -/
def spec_completed (s : Date) (r : Row) : Prop :=
  r.end_date < s

/-- The least population-priority rank present in a client group
(ranks are at most 3, so 3 seeds the fold). -/
def minRankOf (g : List Row) : ℕ :=
  (g.map popRank).foldr min 3

/-- Spec wording of the deduplicated choice for one client: among the
rows of that client, keep the earliest-in-input row of minimal priority rank. -/
def spec_kept_for_client (df : List Row) (c : String) : List Row :=
  let g := df.filter (fun r => r.client_id == c)
  (g.filter (fun r => popRank r == minRankOf g)).take 1

/-! ### Concrete rows used by the documented scenarios of the claims -/

/-- Scenario row: Active population of 100, no OE counts. -/
def exRowActive100 : Row :=
  ⟨"C1", "Active", 100, 0, 0, ⟨2025, 10, 27⟩, ⟨2025, 11, 2⟩⟩

/-- Scenario row: Retiree population of 20 for the same client. -/
def exRowRetiree20 : Row :=
  ⟨"C1", "Retiree", 20, 0, 0, ⟨2025, 10, 27⟩, ⟨2025, 11, 2⟩⟩

/-- Scenario row: `total_oe_count = 5`, `confirmed_oe_count = 9`. -/
def exRowOverConfirmed : Row :=
  ⟨"C2", "Active", 7, 5, 9, ⟨2025, 10, 27⟩, ⟨2025, 11, 2⟩⟩

/-- Projection scenario: a continuing client with 50 active lives. -/
def projContinuingRow : Row :=
  ⟨"C1", "Active", 50, 0, 0, ⟨2025, 10, 27⟩, ⟨2025, 11, 5⟩⟩

/-- Projection scenario: the Active row of the new client (30 lives). -/
def projNewActiveRow : Row :=
  ⟨"N1", "Active", 30, 0, 0, ⟨2025, 11, 4⟩, ⟨2025, 11, 8⟩⟩

/-- Projection scenario: the Retiree row of the new client (40 lives). -/
def projNewRetireeRow : Row :=
  ⟨"N1", "Retiree", 40, 0, 0, ⟨2025, 11, 4⟩, ⟨2025, 11, 8⟩⟩

/-- Projection scenario frame. -/
def projExampleDf : List Row :=
  [projContinuingRow, projNewActiveRow, projNewRetireeRow]

/-- A row whose window starts and ends on the week end date. -/
def edgeRowAtEnd : Row :=
  ⟨"C4", "Active", 10, 0, 0, ⟨2025, 11, 9⟩, ⟨2025, 11, 9⟩⟩

/-- A row whose window ends before the week start date. -/
def edgeRowBefore : Row :=
  ⟨"C5", "Active", 10, 0, 0, ⟨2025, 10, 1⟩, ⟨2025, 11, 1⟩⟩

/-- A row starting September 7 with confirmed events. -/
def sepSevenRow : Row :=
  ⟨"C6", "Active", 0, 10, 10, ⟨2025, 9, 7⟩, ⟨2025, 12, 30⟩⟩

/-- Spec predicate for the confirmed-lives window:
`start_date` in the span from September 8 of the year of `week_end`
through `week_end`. -/
def spec_confirmed_window (week_end : Date) (r : Row) : Prop :=
  Date.mk week_end.year 9 8 ≤ r.start_date ∧ r.start_date ≤ week_end

instance (week_end : Date) (r : Row) : Decidable (spec_confirmed_window week_end r) :=
  inferInstanceAs (Decidable (_ ∧ _))

/-- A raw row with a start date but no end date in any candidate column. -/
def rawMirrorStart : RawRow :=
  ⟨"R1", some "Active", some 10, some 0, some 0,
    [none, some ⟨2025, 11, 3⟩], [none, none]⟩

/-- The normalized row `rawMirrorStart` should clean to: a one-day window. -/
def mirrorCleanRow : Row :=
  ⟨"R1", "Active", 10, 0, 0, ⟨2025, 11, 3⟩, ⟨2025, 11, 3⟩⟩

/-- A raw row whose resolved end date precedes its resolved start date. -/
def rawInvalidWindow : RawRow :=
  ⟨"R2", some "Active", some 10, some 0, some 0,
    [some ⟨2025, 11, 9⟩], [some ⟨2025, 11, 3⟩]⟩

/-- A raw row with no parseable date in any candidate column. -/
def rawNoDates : RawRow :=
  ⟨"R3", some "Active", some 5, some 0, some 0, [none, none], []⟩

/-! ## Theorems -/

theorem Date.le_def (a b : Date) : (a ≤ b) = (Date.ble a b = true) := rfl

theorem Date.lt_def (a b : Date) : (a < b) = (Date.blt a b = true) := rfl

theorem Date.decide_le (a b : Date) : decide (a ≤ b) = Date.ble a b := by
  cases h : Date.ble a b with
  | false =>
    exact decide_eq_false (fun hc => by rw [Date.le_def, h] at hc; cases hc)
  | true => exact decide_eq_true h

theorem Date.decide_lt (a b : Date) : decide (a < b) = Date.blt a b := by
  cases h : Date.blt a b with
  | false =>
    exact decide_eq_false (fun hc => by rw [Date.lt_def, h] at hc; cases hc)
  | true => exact decide_eq_true h

theorem intTrunc_zero : intTrunc 0 = 0 := by simp [intTrunc]

/-- C3: `lives_active` uses `total_oe_count - confirmed_oe_count` when
`total_oe_count > 0` and `population_size` otherwise, clamps each per-row
contribution at 0, sums over all rows without deduplication, and
truncates to an integer; a row with `total_oe_count = 5` and
`confirmed_oe_count = 9` contributes 0 (so together with an Active row
of population 100 the total is 100, not 96), and two same-client rows
with populations 100 and 20 yield 120, not 100. -/
theorem claim_C3_lives_active :
    (∀ df : List Row, calc_lives_active df = intTrunc ((df.map spec_row_lives).sum)) ∧
    calc_lives_active [exRowOverConfirmed] = 0 ∧
    calc_lives_active [exRowOverConfirmed, exRowActive100] = 100 ∧
    calc_lives_active [exRowActive100, exRowRetiree20] = 120 := by
  refine ⟨fun df => ?_, ?_, ?_, ?_⟩
  · cases df with
    | nil => simp [calc_lives_active, intTrunc]
    | cons a l =>
      rw [calc_lives_active, if_neg (by simp : ¬(a :: l = []))]
      rfl
  · rw [calc_lives_active, if_neg (by decide : ¬([exRowOverConfirmed] = []))]
    norm_num [intTrunc, exRowOverConfirmed]
  · rw [calc_lives_active,
      if_neg (by decide : ¬([exRowOverConfirmed, exRowActive100] = []))]
    norm_num [intTrunc, exRowOverConfirmed, exRowActive100]
  · rw [calc_lives_active,
      if_neg (by decide : ¬([exRowActive100, exRowRetiree20] = []))]
    norm_num [intTrunc, exRowActive100, exRowRetiree20]

/-- C4: population-type normalization maps (case/whitespace-insensitively)
values containing "active" or equal to "act" to Active, values containing
"cobra" or equal to "cob" to COBRA, values containing "ret" to Retiree,
title-cases anything else after trimming, and maps a missing value to
"Unknown"; witnessed on one input per branch. -/
theorem claim_C4_normalize_pop_type :
    (∀ v : Option String, normalize_pop_type v = spec_normalize_pop_type v) ∧
    normalize_pop_type (some "  ACTIVE employees ") = "Active" ∧
    normalize_pop_type (some "Act") = "Active" ∧
    normalize_pop_type (some "cob") = "COBRA" ∧
    normalize_pop_type (some " Retirees") = "Retiree" ∧
    normalize_pop_type (some " part time ") = "Part Time" ∧
    normalize_pop_type none = "Unknown" := by
  exact ⟨fun v => rfl, by decide, by decide, by decide, by decide, by decide, rfl⟩

/-- C5: the three window filters keep exactly the rows satisfying the
going-live, active, and completed predicates, preserve relative input
order (each output is a sublist of the input), a row with
`start_date = end_date = e` is active, and a row with `end_date < s` is
not active. -/
theorem claim_C5_window_filters :
    (∀ (df : List Row) (s e : Date),
      (rows_going_live df s e).Sublist df ∧
      (rows_active df s e).Sublist df ∧
      (rows_completed df s).Sublist df ∧
      (∀ r, r ∈ rows_going_live df s e ↔ r ∈ df ∧ spec_going_live s e r) ∧
      (∀ r, r ∈ rows_active df s e ↔ r ∈ df ∧ spec_active s e r) ∧
      (∀ r, r ∈ rows_completed df s ↔ r ∈ df ∧ spec_completed s r)) ∧
    edgeRowAtEnd ∈ rows_active [edgeRowAtEnd] ⟨2025, 11, 3⟩ ⟨2025, 11, 9⟩ ∧
    rows_active [edgeRowBefore] ⟨2025, 11, 3⟩ ⟨2025, 11, 9⟩ = [] := by
  refine ⟨fun df s e => ⟨List.filter_sublist df, List.filter_sublist df,
    List.filter_sublist df, fun r => ?_, fun r => ?_, fun r => ?_⟩, by decide, by decide⟩
  · simp [rows_going_live, List.mem_filter, spec_going_live, Date.le_def]
  · simp [rows_active, List.mem_filter, spec_active, Date.le_def]
  · simp [rows_completed, List.mem_filter, spec_completed, Date.lt_def]

/-- C6: `lives_confirmed` sums `confirmed_oe_count` over exactly the rows
whose `start_date` lies between September 8 of the relevant year and the
week end, inclusive;
a row starting September 7 of that year is excluded even though it is
otherwise inside the window (the concrete frame evaluates to 0 even
though the confirmed count of that row is 10). -/
theorem claim_C6_lives_confirmed :
    (∀ (df : List Row) (week_end : Date),
      calc_lives_confirmed_for_active df week_end =
        intTrunc (((df.filter (fun r => decide (spec_confirmed_window week_end r))).map
          Row.confirmed_oe_count).sum)) ∧
    sepSevenRow.confirmed_oe_count = 10 ∧
    sepSevenRow ∈ rows_active [sepSevenRow] ⟨2025, 12, 29⟩ ⟨2025, 12, 31⟩ ∧
    calc_lives_confirmed_for_active
      (rows_active [sepSevenRow] ⟨2025, 12, 29⟩ ⟨2025, 12, 31⟩) ⟨2025, 12, 31⟩ = 0 := by
  refine ⟨fun df week_end => ?_, by decide, by decide, ?_⟩
  · have hp : (fun r => decide (spec_confirmed_window week_end r)) =
        (fun r => Date.ble ⟨week_end.year, 9, 8⟩ r.start_date &&
          Date.ble r.start_date week_end) := by
      funext r
      simp only [spec_confirmed_window, Bool.decide_and, Date.decide_le]
    cases df with
    | nil => simp [calc_lives_confirmed_for_active, intTrunc_zero]
    | cons a l =>
      rw [calc_lives_confirmed_for_active, if_neg (by simp : ¬(a :: l = [])), hp]
  · have h : rows_active [sepSevenRow] ⟨2025, 12, 29⟩ ⟨2025, 12, 31⟩ = [sepSevenRow] := by
      decide
    rw [h, calc_lives_confirmed_for_active, if_neg (by decide : ¬([sepSevenRow] = []))]
    have hf : ([sepSevenRow].filter (fun r =>
        Date.ble ⟨(2025 : Int), 9, 8⟩ r.start_date &&
          Date.ble r.start_date ⟨2025, 12, 31⟩)) = [] := by decide
    rw [hf]
    simp [intTrunc_zero]

/-- C1: the next-week projection is `lives_active` over the continuing
rows plus the guarded, per-client rounded sum over the rows going live
next week; on the documented scenario the continuing rows give 50, the
new-client buckets of Active 30 and Retiree 40 are clamped to 30 + 30
and contribute 60, and the projection totals 110. -/
theorem claim_C1_projection :
    (∀ (df : List Row) (s e : Date),
      projected_next_week df s e =
        calc_lives_active (continuing_next_week df s e) +
          sum_new_client_popsize_with_guard (new_go_lives_next_week df s e)) ∧
    calc_lives_active (continuing_next_week projExampleDf ⟨2025, 11, 3⟩ ⟨2025, 11, 9⟩) = 50 ∧
    sum_new_client_popsize_with_guard
      (new_go_lives_next_week projExampleDf ⟨2025, 11, 3⟩ ⟨2025, 11, 9⟩) = 60 ∧
    projected_next_week projExampleDf ⟨2025, 11, 3⟩ ⟨2025, 11, 9⟩ = 110 := by
  have h50 : calc_lives_active
      (continuing_next_week projExampleDf ⟨2025, 11, 3⟩ ⟨2025, 11, 9⟩) = 50 := by
    have h : continuing_next_week projExampleDf ⟨2025, 11, 3⟩ ⟨2025, 11, 9⟩ =
        [projContinuingRow] := by decide
    rw [h, calc_lives_active, if_neg (by decide : ¬([projContinuingRow] = []))]
    norm_num [intTrunc, projContinuingRow]
  have h60 : sum_new_client_popsize_with_guard
      (new_go_lives_next_week projExampleDf ⟨2025, 11, 3⟩ ⟨2025, 11, 9⟩) = 60 := by
    have h : new_go_lives_next_week projExampleDf ⟨2025, 11, 3⟩ ⟨2025, 11, 9⟩ =
        [projNewActiveRow, projNewRetireeRow] := by decide
    have hg : List.filter (fun r => r.client_id == "N1")
        [projNewActiveRow, projNewRetireeRow] = [projNewActiveRow, projNewRetireeRow] := by
      decide
    have hA : client_bucket [projNewActiveRow, projNewRetireeRow] "Active" = 30 := by
      have hf : List.filter (fun r => r.population_type == "Active")
          [projNewActiveRow, projNewRetireeRow] = [projNewActiveRow] := by decide
      have e : pop_est projNewActiveRow = 30 := by decide
      simp [client_bucket, hf, e]
    have hR : client_bucket [projNewActiveRow, projNewRetireeRow] "Retiree" = 40 := by
      have hf : List.filter (fun r => r.population_type == "Retiree")
          [projNewActiveRow, projNewRetireeRow] = [projNewRetireeRow] := by decide
      have e : pop_est projNewRetireeRow = 40 := by decide
      simp [client_bucket, hf, e]
    have hC : client_bucket [projNewActiveRow, projNewRetireeRow] "COBRA" = 0 := by
      have hf : List.filter (fun r => r.population_type == "COBRA")
          [projNewActiveRow, projNewRetireeRow] = [] := by decide
      simp [client_bucket, hf]
    have hO : client_others [projNewActiveRow, projNewRetireeRow] = 0 := by
      have hf : List.filter (fun r =>
          !(r.population_type == "Active") && !(r.population_type == "Retiree") &&
          !(r.population_type == "COBRA")) [projNewActiveRow, projNewRetireeRow] = [] := by
        decide
      simp [client_others, hf]
    have hcc : client_contribution [projNewActiveRow, projNewRetireeRow] = 60 := by
      rw [client_contribution, hA, hR, hC, hO]
      norm_num [pyRound]
    rw [h, sum_new_client_popsize_with_guard,
      if_neg (by decide : ¬([projNewActiveRow, projNewRetireeRow] = []))]
    have hm : (([projNewActiveRow, projNewRetireeRow].map Row.client_id).dedup) = ["N1"] := by
      decide
    rw [hm]
    simp [hg, hcc]
  refine ⟨fun df s e => rfl, h50, h60, ?_⟩
  rw [projected_next_week, h50, h60]
  norm_num

/-! ### Deduplication: order, scan, and characterization lemmas -/

theorem rowKeyLe_trans : ∀ (a b c : Row),
    rowKeyLe a b → rowKeyLe b c → rowKeyLe a c := by
  intro a b c hab hbc
  simp only [rowKeyLe, decide_eq_true_eq] at *
  rcases hab with h1 | ⟨h1, h1r⟩
  · rcases hbc with h2 | ⟨h2, h2r⟩
    · exact Or.inl (lt_trans h1 h2)
    · exact Or.inl (lt_of_lt_of_le h1 (le_of_eq h2))
  · rcases hbc with h2 | ⟨h2, h2r⟩
    · exact Or.inl (lt_of_le_of_lt (le_of_eq h1) h2)
    · exact Or.inr ⟨h1.trans h2, le_trans h1r h2r⟩

theorem rowKeyLe_total : ∀ (a b : Row), rowKeyLe a b || rowKeyLe b a := by
  intro a b
  simp only [rowKeyLe, Bool.or_eq_true, decide_eq_true_eq]
  rcases lt_trichotomy a.client_id b.client_id with h | h | h
  · exact Or.inl (Or.inl h)
  · rcases le_total (popRank a) (popRank b) with hr | hr
    · exact Or.inl (Or.inr ⟨h, hr⟩)
    · exact Or.inr (Or.inr ⟨h.symm, hr⟩)
  · exact Or.inr (Or.inl h)

theorem keepFirstAux_sublist (seen : List String) (l : List Row) :
    (keepFirstAux seen l).Sublist l := by
  induction l generalizing seen with
  | nil => simp [keepFirstAux]
  | cons r rs ih =>
    rw [keepFirstAux]
    by_cases hx : r.client_id ∈ seen
    · rw [if_pos hx]
      exact List.Sublist.cons r (ih seen)
    · rw [if_neg hx]
      exact List.Sublist.cons₂ r (ih (r.client_id :: seen))

theorem client_not_seen_of_mem_keepFirstAux {seen : List String} {l : List Row}
    {r : Row} (h : r ∈ keepFirstAux seen l) : r.client_id ∉ seen := by
  induction l generalizing seen with
  | nil => simp [keepFirstAux] at h
  | cons x xs ih =>
    rw [keepFirstAux] at h
    by_cases hx : x.client_id ∈ seen
    · rw [if_pos hx] at h
      exact ih h
    · rw [if_neg hx] at h
      rcases List.mem_cons.mp h with rfl | hm
      · exact hx
      · intro hs
        exact (ih hm) (List.mem_cons_of_mem _ hs)

theorem map_client_nodup_keepFirstAux (seen : List String) (l : List Row) :
    ((keepFirstAux seen l).map Row.client_id).Nodup := by
  induction l generalizing seen with
  | nil => simp [keepFirstAux]
  | cons x xs ih =>
    rw [keepFirstAux]
    by_cases hx : x.client_id ∈ seen
    · rw [if_pos hx]
      exact ih seen
    · rw [if_neg hx]
      simp only [List.map_cons, List.nodup_cons]
      refine ⟨?_, ih _⟩
      intro hmem
      rcases List.mem_map.mp hmem with ⟨r, hr, hrc⟩
      exact (client_not_seen_of_mem_keepFirstAux hr)
        (by rw [hrc]; exact List.mem_cons_self _ _)

theorem keepFirstAux_filter (c : String) (l : List Row) (seen : List String) :
    (keepFirstAux seen l).filter (fun r => r.client_id == c) =
      if c ∈ seen then [] else (l.filter (fun r => r.client_id == c)).take 1 := by
  induction l generalizing seen with
  | nil => simp [keepFirstAux]
  | cons x xs ih =>
    rw [keepFirstAux]
    by_cases hx : x.client_id ∈ seen
    · rw [if_pos hx, ih]
      by_cases hc : c ∈ seen
      · simp [hc]
      · have hne : ¬(x.client_id == c) = true := by
          simp only [beq_iff_eq]
          intro hq
          exact hc (hq ▸ hx)
        simp [hc, List.filter_cons, hne]
    · rw [if_neg hx]
      by_cases hxc : x.client_id = c
      · have hcseen : c ∉ seen := fun hs => hx (hxc ▸ hs)
        have hmemc : c ∈ x.client_id :: seen := by
          rw [hxc]
          exact List.mem_cons_self _ _
        have hL : (x :: keepFirstAux (x.client_id :: seen) xs).filter
            (fun r => r.client_id == c) = [x] := by
          rw [List.filter_cons, if_pos (by simp [hxc]), ih, if_pos hmemc]
        have hR : (if c ∈ seen then ([] : List Row)
            else ((x :: xs).filter (fun r => r.client_id == c)).take 1) = [x] := by
          rw [if_neg hcseen, List.filter_cons, if_pos (by simp [hxc])]
          simp
        rw [hL, hR]
      · have hne : ¬((x.client_id == c) = true) := by simp [hxc]
        have hiff : (c ∈ x.client_id :: seen) ↔ c ∈ seen := by
          constructor
          · intro h
            rcases List.mem_cons.mp h with h | h
            · exact absurd h.symm hxc
            · exact h
          · exact List.mem_cons_of_mem _
        have hL : (x :: keepFirstAux (x.client_id :: seen) xs).filter
            (fun r => r.client_id == c) =
            if c ∈ seen then [] else (xs.filter (fun r => r.client_id == c)).take 1 := by
          rw [List.filter_cons, if_neg hne, ih]
          by_cases hc : c ∈ seen
          · rw [if_pos (hiff.mpr hc), if_pos hc]
          · rw [if_neg (fun h => hc (hiff.mp h)), if_neg hc]
        have hR : ((x :: xs).filter (fun r => r.client_id == c)).take 1 =
            (xs.filter (fun r => r.client_id == c)).take 1 := by
          rw [List.filter_cons, if_neg hne]
        rw [hL]
        by_cases hc : c ∈ seen
        · rw [if_pos hc, if_pos hc]
        · rw [if_neg hc, if_neg hc, hR]

theorem popRank_le_three (r : Row) : popRank r ≤ 3 := by
  rw [popRank]
  split_ifs <;> omega

theorem minRankOf_cons (x : Row) (xs : List Row) :
    minRankOf (x :: xs) = min (popRank x) (minRankOf xs) := by
  simp [minRankOf]

theorem minRankOf_le {g : List Row} {r : Row} (h : r ∈ g) :
    minRankOf g ≤ popRank r := by
  induction g with
  | nil => cases h
  | cons x xs ih =>
    rw [minRankOf_cons]
    rcases List.mem_cons.mp h with rfl | hm
    · exact min_le_left _ _
    · exact le_trans (min_le_right _ _) (ih hm)

theorem exists_popRank_eq_minRankOf {g : List Row} (h : g ≠ []) :
    ∃ r ∈ g, popRank r = minRankOf g := by
  induction g with
  | nil => exact absurd rfl h
  | cons x xs ih =>
    rw [minRankOf_cons]
    by_cases hx : popRank x ≤ minRankOf xs
    · exact ⟨x, List.mem_cons_self _ _, (min_eq_left hx).symm⟩
    · have hxs : xs ≠ [] := by
        intro hnil
        apply hx
        rw [hnil]
        simpa [minRankOf] using popRank_le_three x
      obtain ⟨r, hrm, hr⟩ := ih hxs
      refine ⟨r, List.mem_cons_of_mem _ hrm, ?_⟩
      rw [hr, min_eq_right (le_of_lt (lt_of_not_le hx))]

theorem mem_filter_client {l : List Row} {c : String} {r : Row}
    (h : r ∈ l.filter (fun r => r.client_id == c)) : r.client_id = c := by
  have := (List.mem_filter.mp h).2
  simpa [beq_iff_eq] using this

/-- Core stability argument: if `S` is a sorted permutation of the
single-client row set `g` that contains the minimal-rank rows of `g` as
a sublist (stability), then the head of `S` is the earliest input row of
minimal priority rank. -/
theorem sorted_head_general (S g : List Row) (c : String)
    (hperm : List.Perm S g)
    (hsort : S.Pairwise (fun a b => rowKeyLe a b = true))
    (hstable : List.Sublist (g.filter (fun r => popRank r == minRankOf g)) S)
    (hclient : ∀ r ∈ g, r.client_id = c) :
    S.take 1 = (g.filter (fun r => popRank r == minRankOf g)).take 1 := by
  cases hS : S with
  | nil =>
    rw [hS] at hperm
    have hgnil : g = [] := List.perm_nil.mp hperm.symm
    rw [hgnil]
    simp
  | cons h t =>
    rw [hS] at hperm hsort hstable
    have hhg : h ∈ g := hperm.mem_iff.mp (List.mem_cons_self _ _)
    have hgne : g ≠ [] := by
      intro hnil
      rw [hnil] at hperm
      exact List.cons_ne_nil _ _ (List.perm_nil.mp hperm)
    obtain ⟨rm, hrmg, hrm⟩ := exists_popRank_eq_minRankOf hgne
    have hrmSg : rm ∈ h :: t := hperm.mem_iff.mpr hrmg
    have hhead_rank : popRank h = minRankOf g := by
      have hle : minRankOf g ≤ popRank h := minRankOf_le hhg
      rcases List.mem_cons.mp hrmSg with rfl | hrt
      · exact hrm
      · have hkey : rowKeyLe h rm = true := (List.pairwise_cons.mp hsort).1 rm hrt
        have hckey : h.client_id = rm.client_id := by
          rw [hclient h hhg, hclient rm hrmg]
        rw [rowKeyLe, decide_eq_true_eq] at hkey
        rcases hkey with hlt | ⟨_, hrle⟩
        · exact absurd hlt (by rw [hckey]; exact lt_irrefl _)
        · exact le_antisymm (hrm ▸ hrle) hle
    have hMrank : (g.filter (fun r => popRank r == minRankOf g)).filter
        (fun r => popRank r == minRankOf g) =
        g.filter (fun r => popRank r == minRankOf g) := by
      rw [List.filter_eq_self]
      intro a ha
      exact (List.mem_filter.mp ha).2
    have hMSgRank : List.Sublist (g.filter (fun r => popRank r == minRankOf g))
        ((h :: t).filter (fun r => popRank r == minRankOf g)) := by
      rw [← hMrank]
      exact hstable.filter _
    have hpermRank : List.Perm ((h :: t).filter (fun r => popRank r == minRankOf g))
        (g.filter (fun r => popRank r == minRankOf g)) := hperm.filter _
    have hMeq : g.filter (fun r => popRank r == minRankOf g) =
        (h :: t).filter (fun r => popRank r == minRankOf g) :=
      hMSgRank.eq_of_length hpermRank.length_eq.symm
    rw [hMeq, List.filter_cons, if_pos (by simp [hhead_rank])]
    simp

/-- The head of the stably sorted rows of one client is the earliest
input row of minimal priority rank. -/
theorem sorted_client_head (df : List Row) (c : String) :
    ((df.mergeSort rowKeyLe).filter (fun r => r.client_id == c)).take 1 =
      ((df.filter (fun r => r.client_id == c)).filter (fun r =>
        popRank r == minRankOf (df.filter (fun r => r.client_id == c)))).take 1 := by
  apply sorted_head_general _ _ c
  · exact (List.mergeSort_perm df rowKeyLe).filter _
  · exact List.Pairwise.sublist (List.filter_sublist _)
      (List.sorted_mergeSort rowKeyLe_trans rowKeyLe_total df)
  · have hMpair : ((df.filter (fun r => r.client_id == c)).filter (fun r =>
        popRank r == minRankOf (df.filter (fun r => r.client_id == c)))).Pairwise
          (fun a b => rowKeyLe a b = true) := by
      apply List.pairwise_of_forall_mem_list
      intro a ha b hb
      have hac : a.client_id = c := mem_filter_client (List.mem_of_mem_filter ha)
      have hbc : b.client_id = c := mem_filter_client (List.mem_of_mem_filter hb)
      have har := (List.mem_filter.mp ha).2
      have hbr := (List.mem_filter.mp hb).2
      rw [beq_iff_eq] at har hbr
      rw [rowKeyLe, decide_eq_true_eq]
      exact Or.inr ⟨hac.trans hbc.symm, le_of_eq (har.trans hbr.symm)⟩
    have hMS : List.Sublist ((df.filter (fun r => r.client_id == c)).filter (fun r =>
        popRank r == minRankOf (df.filter (fun r => r.client_id == c))))
          (df.mergeSort rowKeyLe) :=
      List.sublist_mergeSort rowKeyLe_trans rowKeyLe_total hMpair
        ((List.filter_sublist _).trans (List.filter_sublist _))
    have hMclient : ((df.filter (fun r => r.client_id == c)).filter (fun r =>
        popRank r == minRankOf (df.filter (fun r => r.client_id == c)))).filter
          (fun r => r.client_id == c) =
        (df.filter (fun r => r.client_id == c)).filter (fun r =>
          popRank r == minRankOf (df.filter (fun r => r.client_id == c))) := by
      rw [List.filter_eq_self]
      intro a ha
      simp [mem_filter_client (List.mem_of_mem_filter ha)]
    rw [← hMclient]
    exact hMS.filter _
  · intro r hr
    exact mem_filter_client hr

/-- C8: applying the projection overwrites only the lives-active value
lives-active value; the Last Week and This Week rows, and every other
field of the Next Week row, equal the naive per-window summary computed
before the override. -/
theorem claim_C8_projection_frame :
    ∀ (df : List Row) (lastW thisW nextW : Date × Date),
      build_summary df lastW thisW nextW =
        [summary_row df lastW, summary_row df thisW,
         { summary_row df nextW with
            lives_active := projected_next_week df nextW.1 nextW.2 }] ∧
      (build_summary df lastW thisW nextW).getLastD (summary_row df nextW) =
        { summary_row df nextW with
            lives_active := projected_next_week df nextW.1 nextW.2 } ∧
      ({ summary_row df nextW with
          lives_active := projected_next_week df nextW.1 nextW.2 } : SummaryRow).week =
        (summary_row df nextW).week ∧
      ({ summary_row df nextW with
          lives_active := projected_next_week df nextW.1 nextW.2 } : SummaryRow).clients_going_live =
        (summary_row df nextW).clients_going_live ∧
      ({ summary_row df nextW with
          lives_active := projected_next_week df nextW.1 nextW.2 } : SummaryRow).clients_active =
        (summary_row df nextW).clients_active ∧
      ({ summary_row df nextW with
          lives_active := projected_next_week df nextW.1 nextW.2 } : SummaryRow).clients_completed =
        (summary_row df nextW).clients_completed ∧
      ({ summary_row df nextW with
          lives_active := projected_next_week df nextW.1 nextW.2 } : SummaryRow).lives_confirmed =
        (summary_row df nextW).lives_confirmed := by
  exact fun df lastW thisW nextW => ⟨rfl, rfl, rfl, rfl, rfl, rfl, rfl⟩

/-- C2: deduplication keeps at most one row per client id, and for every
client the kept row is the earliest-in-input row of minimal
population-priority rank (Active before COBRA before Retiree before any
unlisted type), as produced by a stable sort on (client_id, rank)
followed by keep-first. -/
theorem claim_C2_dedupe_choice (df : List Row) :
    ((dedupe_clients_for_count df).map Row.client_id).Nodup ∧
    ∀ c : String,
      (dedupe_clients_for_count df).filter (fun r => r.client_id == c) =
        spec_kept_for_client df c := by
  constructor
  · exact map_client_nodup_keepFirstAux [] _
  · intro c
    rw [dedupe_clients_for_count, keepFirstAux_filter,
      if_neg (List.not_mem_nil c)]
    simp only [spec_kept_for_client]
    exact sorted_client_head df c

theorem keepFirstAux_eq_self {seen : List String} {l : List Row}
    (h1 : ∀ r ∈ l, r.client_id ∉ seen) (h2 : (l.map Row.client_id).Nodup) :
    keepFirstAux seen l = l := by
  induction l generalizing seen with
  | nil => rfl
  | cons x xs ih =>
    simp only [List.map_cons, List.nodup_cons] at h2
    rw [keepFirstAux, if_neg (h1 x (List.mem_cons_self _ _))]
    congr 1
    apply ih
    · intro r hr hmem
      rcases List.mem_cons.mp hmem with heq | hseen
      · exact h2.1 (List.mem_map.mpr ⟨r, hr, heq⟩)
      · exact h1 r (List.mem_cons_of_mem _ hr) hseen
    · exact h2.2

theorem dedupe_sorted (df : List Row) :
    (dedupe_clients_for_count df).Pairwise (fun a b => rowKeyLe a b = true) :=
  List.Pairwise.sublist (keepFirstAux_sublist [] _)
    (List.sorted_mergeSort rowKeyLe_trans rowKeyLe_total df)

/-- C9: deduplication is idempotent — applying the deduplicator to its
own output returns that output unchanged. -/
theorem claim_C9_dedupe_idempotent :
    ∀ df : List Row,
      dedupe_clients_for_count (dedupe_clients_for_count df) =
        dedupe_clients_for_count df := by
  intro df
  conv_lhs => rw [dedupe_clients_for_count]
  rw [List.mergeSort_of_sorted (dedupe_sorted df)]
  apply keepFirstAux_eq_self
  · intro r _
    exact List.not_mem_nil _
  · exact map_client_nodup_keepFirstAux [] _

/-! ### Schema normalizer lemmas -/

theorem Date.ble_refl (a : Date) : Date.ble a a = true := by
  simp [Date.ble]

theorem clean_row_none_of_no_dates {r : RawRow}
    (h1 : coalesce_dates r.start_cands = none)
    (h2 : coalesce_dates r.end_cands = none) : clean_row r = none := by
  simp [clean_row, h1, h2, Option.orElse]

/-- C7: every row retained by normalization satisfies
`start_date <= end_date`; a missing bound is mirrored from the other
(one-day window), and a row whose resolved end date is strictly earlier
than its resolved start date is dropped. -/
theorem claim_C7_window_invariant :
    (∀ (raws : List RawRow) (row : Row), row ∈ load_and_clean_excel raws →
      row.start_date ≤ row.end_date) ∧
    (∀ (r : RawRow) (s : Date), coalesce_dates r.start_cands = some s →
      coalesce_dates r.end_cands = none →
      ∃ row, clean_row r = some row ∧ row.start_date = s ∧ row.end_date = s) ∧
    (∀ (r : RawRow) (e : Date), coalesce_dates r.start_cands = none →
      coalesce_dates r.end_cands = some e →
      ∃ row, clean_row r = some row ∧ row.start_date = e ∧ row.end_date = e) ∧
    (∀ (r : RawRow) (s e : Date), coalesce_dates r.start_cands = some s →
      coalesce_dates r.end_cands = some e → Date.ble s e = false →
      clean_row r = none) := by
  refine ⟨?_, ?_, ?_, ?_⟩
  · intro raws row hrow
    obtain ⟨raw, _, hcr⟩ := List.mem_filterMap.mp hrow
    rcases hcs : coalesce_dates raw.start_cands with _ | s
    · rcases hce : coalesce_dates raw.end_cands with _ | e
      · rw [clean_row_none_of_no_dates hcs hce] at hcr
        cases hcr
      · simp only [clean_row, hcs, hce, Option.orElse] at hcr
        rw [if_pos (Date.ble_refl e)] at hcr
        cases hcr
        exact Date.ble_refl e
    · rcases hce : coalesce_dates raw.end_cands with _ | e
      · simp only [clean_row, hcs, hce, Option.orElse] at hcr
        rw [if_pos (Date.ble_refl s)] at hcr
        cases hcr
        exact Date.ble_refl s
      · simp only [clean_row, hcs, hce, Option.orElse] at hcr
        cases hble : Date.ble s e with
        | false =>
          rw [if_neg (by simp [hble])] at hcr
          cases hcr
        | true =>
          rw [if_pos hble] at hcr
          cases hcr
          exact hble
  · intro r s h1 h2
    refine ⟨⟨pyStrip r.client_id, normalize_pop_type r.population_type,
      r.population_size.getD 0, r.total_oe_count.getD 0,
      r.confirmed_oe_count.getD 0, s, s⟩, ?_, rfl, rfl⟩
    simp only [clean_row, h1, h2, Option.orElse]
    rw [if_pos (Date.ble_refl s)]
  · intro r e h1 h2
    refine ⟨⟨pyStrip r.client_id, normalize_pop_type r.population_type,
      r.population_size.getD 0, r.total_oe_count.getD 0,
      r.confirmed_oe_count.getD 0, e, e⟩, ?_, rfl, rfl⟩
    simp only [clean_row, h1, h2, Option.orElse]
    rw [if_pos (Date.ble_refl e)]
  · intro r s e h1 h2 hble
    simp only [clean_row, h1, h2, Option.orElse]
    rw [if_neg (by simp [hble])]

/-- Witness for C7: a start-only raw row cleans to a one-day window whose
dates coincide, a reversed window is dropped, and the cleaned row from a
concrete load satisfies the invariant. -/
theorem claim_C7_window_invariant_witness :
    (coalesce_dates rawMirrorStart.start_cands = some ⟨2025, 11, 3⟩ ∧
      coalesce_dates rawMirrorStart.end_cands = none ∧
      ∃ row, clean_row rawMirrorStart = some row ∧
        row.start_date = (⟨2025, 11, 3⟩ : Date) ∧
        row.end_date = (⟨2025, 11, 3⟩ : Date)) ∧
    (coalesce_dates rawInvalidWindow.start_cands = some ⟨2025, 11, 9⟩ ∧
      coalesce_dates rawInvalidWindow.end_cands = some ⟨2025, 11, 3⟩ ∧
      Date.ble ⟨2025, 11, 9⟩ ⟨2025, 11, 3⟩ = false ∧
      clean_row rawInvalidWindow = none) ∧
    (mirrorCleanRow ∈ load_and_clean_excel [rawMirrorStart, rawInvalidWindow] ∧
      mirrorCleanRow.start_date ≤ mirrorCleanRow.end_date) :=
  ⟨⟨rfl, rfl, claim_C7_window_invariant.2.1 rawMirrorStart ⟨2025, 11, 3⟩ rfl rfl⟩,
   ⟨rfl, rfl, rfl,
    claim_C7_window_invariant.2.2.2 rawInvalidWindow ⟨2025, 11, 9⟩ ⟨2025, 11, 3⟩ rfl rfl rfl⟩,
   ⟨by decide,
    claim_C7_window_invariant.1 [rawMirrorStart, rawInvalidWindow] mirrorCleanRow
      (by decide)⟩⟩

/-- C10: a raw row with no parseable date in any candidate start or end
column is excluded entirely from the normalized set — dropping all such
rows first does not change the output. -/
theorem claim_C10_dateless_rows_excluded :
    (∀ r : RawRow, coalesce_dates r.start_cands = none →
      coalesce_dates r.end_cands = none → clean_row r = none) ∧
    (∀ raws : List RawRow,
      load_and_clean_excel raws =
        load_and_clean_excel (raws.filter (fun r =>
          (coalesce_dates r.start_cands).isSome ||
            (coalesce_dates r.end_cands).isSome))) := by
  refine ⟨fun r h1 h2 => clean_row_none_of_no_dates h1 h2, ?_⟩
  intro raws
  induction raws with
  | nil => rfl
  | cons r rs ih =>
    simp only [load_and_clean_excel] at ih ⊢
    rw [List.filter_cons]
    by_cases hc : ((coalesce_dates r.start_cands).isSome ||
        (coalesce_dates r.end_cands).isSome) = true
    · rw [if_pos hc, List.filterMap_cons, List.filterMap_cons]
      cases hcr : clean_row r with
      | none => simp [ih]
      | some row => simp [ih]
    · have h1 : coalesce_dates r.start_cands = none := by
        rcases h : coalesce_dates r.start_cands with _ | v
        · rfl
        · exact absurd (by simp [h]) hc
      have h2 : coalesce_dates r.end_cands = none := by
        rcases h : coalesce_dates r.end_cands with _ | v
        · rfl
        · exact absurd (by simp [h]) hc
      rw [if_neg hc, List.filterMap_cons, clean_row_none_of_no_dates h1 h2]
      exact ih

/-- Witness for C10: a concrete dateless raw row is dropped, and
filtering it away first leaves the load unchanged. -/
theorem claim_C10_dateless_rows_excluded_witness :
    (coalesce_dates rawNoDates.start_cands = none ∧
      coalesce_dates rawNoDates.end_cands = none ∧
      clean_row rawNoDates = none) ∧
    load_and_clean_excel [rawNoDates, rawMirrorStart] =
      load_and_clean_excel ([rawNoDates, rawMirrorStart].filter (fun r =>
        (coalesce_dates r.start_cands).isSome ||
          (coalesce_dates r.end_cands).isSome)) :=
  ⟨⟨rfl, rfl, claim_C10_dateless_rows_excluded.1 rawNoDates rfl rfl⟩,
   claim_C10_dateless_rows_excluded.2 [rawNoDates, rawMirrorStart]⟩

end WeeklyReports
